import Mathlib

/-!
# Verification of the `jui` text/layout renderer

A shallow embedding of the parts of the `jui` repository that the
specification's claims are about:

* `src/layout.rs` — `Bbox` and the `Container::layout` child-box assignment
  for `Hbox`/`Vbox`;
* `src/text_renderer.rs` — the glyph atlas cache (`cache_char`), the quad
  batch (`add_char_to_batch`, `clear`) and the line layout functions
  (`add_string_to_batch`, `add_multiline_string_to_batch`).

`f32` values are modelled as exact rationals (`ℚ`); every concrete input used
below has exactly representable `f32` arithmetic.  The LRU cache
(`lru::LruCache`, unbounded) is modelled as an association list in recency
order, most recently used first.  The rectangle packing allocator (the
external `etagere` crate) is kept abstract as a parameter; a concrete shelf
allocator modelled from the spec is used for closed evaluations.
-/

set_option autoImplicit false

namespace Jui

/-- The color type `[f32; 4]`. -/
abbrev Color : Type := ℚ × ℚ × ℚ × ℚ

/-! ## `src/layout.rs`: bounding boxes -/

/-- `Bbox { min: (f32, f32), max: (f32, f32) }` from `src/layout.rs`. -/
structure Bbox where
  min : ℚ × ℚ
  max : ℚ × ℚ
  deriving DecidableEq, Repr

namespace Bbox

/-- `Bbox::new(x0, y0, x1, y1)`. -/
def new (x0 y0 x1 y1 : ℚ) : Bbox := ⟨(x0, y0), (x1, y1)⟩

/-- `Bbox::width`. -/
def width (b : Bbox) : ℚ := b.max.1 - b.min.1

/-- `Bbox::height`. -/
def height (b : Bbox) : ℚ := b.max.2 - b.min.2

/-- `Bbox::top_left`. -/
def top_left (b : Bbox) : ℚ × ℚ := (b.min.1, b.max.2)

/-- `Bbox::inside(pos)`: `min.0 <= pos.0 <= max.0 && min.1 <= pos.1 <= max.1`. -/
def inside (b : Bbox) (pos : ℚ × ℚ) : Bool :=
  (decide (b.min.1 ≤ pos.1) && decide (pos.1 ≤ b.max.1)) &&
  (decide (b.min.2 ≤ pos.2) && decide (pos.2 ≤ b.max.2))

end Bbox

/-! ## `src/layout.rs`: `Container::layout` child box computation

`Container::layout` computes, for the child at insertion index `i` of a
container with `n` children inside parent box `parent`:

```rust
let child_bbox = if self.is_hbox() {
    let child_index = i;
    let child_width = parent_size.width() / self.elements().len() as f32;
    let x0 = parent_size.min.0 + child_width * child_index as f32;
    Bbox::new(x0, parent_size.min.1, x0 + child_width, parent_size.max.1)
} else {
    let child_index = self.elements().len() - i - 1;
    let child_height = parent_size.height() / self.elements().len() as f32;
    let y0 = parent_size.min.1 + child_height * child_index as f32;
    Bbox::new(parent_size.min.0, y0, parent_size.max.0, y0 + child_height)
};
```

Note `self.elements().len() - i - 1` is computed in `usize` (truncated
subtraction) before the cast to `f32`. -/

/-- The child bounding box assigned by `Container::layout` to the child at
insertion index `i` of a container with `n` children (`is_hbox` selects the
`Hbox` or `Vbox` branch). -/
def childBbox (is_hbox : Bool) (n i : ℕ) (parent : Bbox) : Bbox :=
  if is_hbox then
    let child_index := i
    let child_width := parent.width / (n : ℚ)
    let x0 := parent.min.1 + child_width * (child_index : ℚ)
    Bbox.new x0 parent.min.2 (x0 + child_width) parent.max.2
  else
    let child_index := n - i - 1
    let child_height := parent.height / (n : ℚ)
    let y0 := parent.min.2 + child_height * (child_index : ℚ)
    Bbox.new parent.min.1 y0 parent.max.1 (y0 + child_height)

/-! ## `src/text_renderer.rs`: the glyph atlas cache

The FreeType face is modelled as a pure function `Char → Glyph`
(the spec, §6, states rasterization is deterministic for a fixed
`(char, size_px)`).  Advances are kept in FreeType's raw 26.6 fixed-point
integers and divided by `64.0` exactly where `cache_char` does. -/

/-- The data `cache_char` reads off a loaded FreeType glyph slot:
`advance().x/y` (raw 26.6 fixed point), `bitmap().width()`,
`bitmap().rows()`, `bitmap_left()`, `bitmap_top()`. -/
structure Glyph where
  advanceX : ℤ
  advanceY : ℤ
  width : ℕ
  height : ℕ
  bitmapLeft : ℤ
  bitmapTop : ℤ
  deriving DecidableEq, Repr

/-- An `etagere::Allocation`: an id plus the min corner of the allocated
rectangle inside the atlas. -/
structure Allocation where
  id : ℕ
  minX : ℕ
  minY : ℕ
  deriving DecidableEq, Repr

/-- The interface of the rectangle packing allocator
(`etagere::AtlasAllocator`, an external crate): `allocate` takes the
requested width and height and returns an allocation and the successor
state, or `none` if nothing fits; `deallocate` frees by allocation id. -/
structure AllocatorImpl (σ : Type) where
  allocate : σ → ℕ → ℕ → Option (Allocation × σ)
  deallocate : σ → ℕ → σ

/-- `AtlasChar` from `src/text_renderer.rs`: advance (in pixels, already
divided by 64), draw offset `pos`, unpadded bitmap size, and the optional
atlas allocation. -/
structure AtlasChar where
  advance : ℚ × ℚ
  pos : ℚ × ℚ
  size : ℚ × ℚ
  alloc : Option Allocation
  deriving DecidableEq, Repr

/-- A `queue.write_texture` call: the atlas-space origin and the size of the
padded bitmap uploaded for a character. -/
structure Upload where
  char : Char
  originX : ℕ
  originY : ℕ
  width : ℕ
  height : ℕ
  deriving DecidableEq, Repr

/-! ### The LRU cache (`lru::LruCache`, unbounded)

Modelled as an association list in recency order, most recently used first.
`LruCache::get` promotes the entry it finds to most-recently-used;
`LruCache::put` inserts (or replaces) as most-recently-used;
`LruCache::pop_lru` removes the last (least recently used) entry. -/

/-- The recency-ordered cache contents, most recently used first. -/
abbrev LruList : Type := List (Char × AtlasChar)

/-- Remove the entry for `c`, keeping the order of the others. -/
def lruRemove (c : Char) : LruList → LruList
  | [] => []
  | (d, v) :: rest => if d = c then lruRemove c rest else (d, v) :: lruRemove c rest

/-- `LruCache::get`: look `c` up; on a hit return its value together with the
list re-ordered so that `c` is most recently used. -/
def lruGet (c : Char) (l : LruList) : Option (AtlasChar × LruList) :=
  match l.lookup c with
  | none => none
  | some v => some (v, (c, v) :: lruRemove c l)

/-- `LruCache::put`: insert (or replace) `c` as most recently used.  The
cache is created with `LruCache::unbounded()`, so `put` never evicts. -/
def lruPut (c : Char) (v : AtlasChar) (l : LruList) : LruList :=
  (c, v) :: lruRemove c l

/-- `LruCache::pop_lru`: remove and return the least recently used entry. -/
def popLru : LruList → Option ((Char × AtlasChar) × LruList)
  | [] => none
  | [e] => some (e, [])
  | e :: rest =>
    match popLru rest with
    | none => none
    | some (lru, rest') => some (lru, e :: rest')

/-- `char::is_whitespace` (Rust): membership of the Unicode `White_Space`
property. -/
def rustIsWhitespace (c : Char) : Bool :=
  [0x09, 0x0A, 0x0B, 0x0C, 0x0D, 0x20, 0x85, 0xA0, 0x1680,
   0x2000, 0x2001, 0x2002, 0x2003, 0x2004, 0x2005, 0x2006, 0x2007,
   0x2008, 0x2009, 0x200A, 0x2028, 0x2029, 0x202F, 0x205F, 0x3000].contains c.toNat

/-! ### The mutable `TextRenderer` state -/

/-- The parts of `TextRenderer` (and its `Atlas`) that the verified
operations read or write, together with an explicit log of the external side
effects (FreeType `load_char` rasterizations and `write_texture` uploads).
The allocator state is the type parameter `σ`. -/
structure TextRendererState (σ : Type) where
  vertices : List (((ℚ × ℚ) × (ℚ × ℚ)) × Color)
  indices : List ℕ
  allocations : LruList
  allocState : σ
  atlasSize : ℚ
  fontSize : ℚ
  rasterized : List Char
  uploads : List Upload
  deriving DecidableEq

/-- `TextRenderer::clear`. -/
def clear {σ : Type} (st : TextRendererState σ) : TextRendererState σ :=
  { st with indices := [], vertices := [] }

/-- `TextRenderer::line_height`: `font_size as f32`. -/
def line_height {σ : Type} (st : TextRendererState σ) : ℚ := st.fontSize

/-! ### `TextRenderer::cache_char` -/

/-- The `AtlasChar` built on the whitespace path of `cache_char`
(`pos = (0.0, 0.0)`, `alloc = None`). -/
def whitespaceAtlasChar (g : Glyph) : AtlasChar :=
  { advance := ((g.advanceX : ℚ) / 64, (g.advanceY : ℚ) / 64)
    size := ((g.width : ℚ), (g.height : ℚ))
    pos := (0, 0)
    alloc := none }

/-- The `AtlasChar` built on the successful allocation path of `cache_char`
(`pos = (bitmap_left, bitmap_top - height)`). -/
def rasterAtlasChar (g : Glyph) (alloc : Allocation) : AtlasChar :=
  { advance := ((g.advanceX : ℚ) / 64, (g.advanceY : ℚ) / 64)
    size := ((g.width : ℚ), (g.height : ℚ))
    pos := ((g.bitmapLeft : ℚ), (g.bitmapTop : ℚ) - (g.height : ℚ))
    alloc := some alloc }

/-- The eviction loop of `cache_char` (lines 146–199): try to allocate the
padded `(width+2) × (height+2)` bitmap; on success upload it and insert the
`AtlasChar` as most recently used; on failure `pop_lru().unwrap()` — which
**panics** when the cache is empty (modelled as `none`) — deallocate the
evicted entry's region if it has one, and retry.  `fuel` only bounds the
recursion; `cache_char` passes `allocations.length + 1`, which is enough
because every failed iteration removes one cache entry. -/
def evictLoop {σ : Type} (A : AllocatorImpl σ) (c : Char) (g : Glyph) :
    ℕ → TextRendererState σ → Option (TextRendererState σ)
  | 0, _ => none
  | fuel + 1, st =>
    match A.allocate st.allocState (g.width + 2) (g.height + 2) with
    | some (alloc, allocState') =>
      some { st with
              allocState := allocState'
              uploads := st.uploads ++
                [{ char := c, originX := alloc.minX, originY := alloc.minY,
                   width := g.width + 2, height := g.height + 2 }]
              allocations := lruPut c (rasterAtlasChar g alloc) st.allocations }
    | none =>
      match popLru st.allocations with
      | none => none
      | some ((_, lruVal), rest) =>
        let allocState' :=
          match lruVal.alloc with
          | some a => A.deallocate st.allocState a.id
          | none => st.allocState
        evictLoop A c g fuel { st with allocations := rest, allocState := allocState' }

/-- `TextRenderer::cache_char` (lines 98–200).  Returns `none` exactly when
the Rust code panics (`pop_lru().unwrap()` on an empty cache).  The face is
the pure rasterizer `face : Char → Glyph`; each `load_char` call is logged
in `rasterized`. -/
def cache_char {σ : Type} (A : AllocatorImpl σ) (face : Char → Glyph) (c : Char)
    (st : TextRendererState σ) : Option (TextRendererState σ) :=
  match lruGet c st.allocations with
  | some (_, allocations') => some { st with allocations := allocations' }
  | none =>
    let g := face c
    let st := { st with rasterized := st.rasterized ++ [c] }
    if rustIsWhitespace c then
      some { st with allocations := lruPut c (whitespaceAtlasChar g) st.allocations }
    else if g.width = 0 ∨ g.height = 0 then
      some st
    else
      evictLoop A c g (st.allocations.length + 1) st

/-! ### `TextRenderer::add_char_to_batch` (lines 513–571)

A batch vertex `Vertex { pos, tex_coords, text_color }` is modelled as the
nested pair `((pos, tex_coords), text_color)`.  The index buffer holds `u16`
values; `(4 * (self.indices.len() / 6)) as u16` and the `start + j` sums are
taken modulo `2^16` (`start` is divisible by 4 and `< 65536`, so
`start + 3 ≤ 65535` never overflows and debug and release builds agree). -/

/-- One batch vertex: `((pos, tex_coords), text_color)`. -/
abbrev Vertex : Type := ((ℚ × ℚ) × (ℚ × ℚ)) × Color

/-- `TextRenderer::add_char_to_batch`: look the character up in the cache
(`LruCache::get`, which also promotes it); on a hit advance the pen and, if
the glyph owns an atlas region, append 6 indices and 4 vertices.  Returns
the new state and the pen position `(x_start, y_start)`. -/
def add_char_to_batch {σ : Type} (c : Char) (text_color : Color)
    (st : TextRendererState σ) (x_start y_start : ℚ) :
    TextRendererState σ × ℚ × ℚ :=
  match lruGet c st.allocations with
  | none => (st, x_start, y_start)
  | some (glyph, allocations') =>
    let st := { st with allocations := allocations' }
    let x := x_start + glyph.pos.1
    let y := y_start + glyph.pos.2
    let w := glyph.size.1
    let h := glyph.size.2
    let x_start' := x_start + glyph.advance.1
    let y_start' := y_start + glyph.advance.2
    match glyph.alloc with
    | none => (st, x_start', y_start')
    | some alloc_rect =>
      let gpx := (alloc_rect.minX : ℚ) + 1
      let gpy := (alloc_rect.minY : ℚ) + 1
      let x0 := gpx / st.atlasSize
      let x1 := (gpx + w) / st.atlasSize
      let y1 := (gpy + h) / st.atlasSize
      let y0 := gpy / st.atlasSize
      let start := (4 * (st.indices.length / 6)) % 65536
      ({ st with
          indices := st.indices ++
            [start, (start + 1) % 65536, (start + 2) % 65536,
             start, (start + 2) % 65536, (start + 3) % 65536]
          vertices := st.vertices ++
            [(((x, y), (x0, y1)), text_color),
             (((x + w, y), (x1, y1)), text_color),
             (((x + w, y + h), (x1, y0)), text_color),
             (((x, y + h), (x0, y0)), text_color)] },
        x_start', y_start')

/-! ### `TextRenderer::add_string_to_batch` (lines 441–493)

The function returns the vertical space consumed.  `none` models a panic:
either `cache_char`'s `pop_lru().unwrap()`, or the measuring pass's
`self.atlas.allocations.get(&c).unwrap()` (which panics for a non-whitespace
character with a zero-size bitmap, since `cache_char` inserts nothing for
it). -/

/-- The measuring pass (lines 459–464): cache every character and sum the
`advance.0` metrics.  `get(&c)` promotes the character and `.unwrap()`
panics if it is not cached. -/
def measureLen {σ : Type} (A : AllocatorImpl σ) (face : Char → Glyph) :
    List Char → TextRendererState σ → ℚ → Option (TextRendererState σ × ℚ)
  | [], st, len => some (st, len)
  | c :: cs, st, len =>
    match cache_char A face c st with
    | none => none
    | some st1 =>
      match lruGet c st1.allocations with
      | none => none
      | some (atlas_char, allocations') =>
        measureLen A face cs { st1 with allocations := allocations' }
          (len + atlas_char.advance.1)

/-- The unwrapped drawing loop (lines 487–490): `cache_char` then
`add_char_to_batch` for each character, threading the pen. -/
def drawChars {σ : Type} (A : AllocatorImpl σ) (face : Char → Glyph)
    (text_color : Color) :
    List Char → TextRendererState σ → ℚ → ℚ →
    Option (TextRendererState σ × ℚ × ℚ)
  | [], st, x, y => some (st, x, y)
  | c :: cs, st, x, y =>
    match cache_char A face c st with
    | none => none
    | some st1 =>
      let r := add_char_to_batch c text_color st1 x y
      drawChars A face text_color cs r.1 r.2.1 r.2.2

/-- One pass of the wrapped drawing loop (the `for c in s.chars()` body,
lines 471–481): before each character, if `x > wrap_bbox.max.0` wrap the pen
(reset `x`, drop `y` by one line height); otherwise if the pen is not
`inside` the box, return `y_start - y` early (`Sum.inr`); then draw the
character.  `Sum.inl` carries the state and pen when the pass runs to
completion. -/
def wrapPass {σ : Type} (A : AllocatorImpl σ) (face : Char → Glyph)
    (text_color : Color) (wrap_bbox : Bbox) (y_start : ℚ) :
    List Char → TextRendererState σ → ℚ → ℚ →
    Option ((TextRendererState σ × ℚ × ℚ) ⊕ (TextRendererState σ × ℚ))
  | [], st, x, y => some (.inl (st, x, y))
  | c :: cs, st, x, y =>
    if x > wrap_bbox.max.1 then
      match cache_char A face c st with
      | none => none
      | some st1 =>
        let r := add_char_to_batch c text_color st1 wrap_bbox.min.1 (y - line_height st)
        wrapPass A face text_color wrap_bbox y_start cs r.1 r.2.1 r.2.2
    else if ¬ wrap_bbox.inside (x, y) then
      some (.inr (st, y_start - y))
    else
      match cache_char A face c st with
      | none => none
      | some st1 =>
        let r := add_char_to_batch c text_color st1 x y
        wrapPass A face text_color wrap_bbox y_start cs r.1 r.2.1 r.2.2

/-- The outer `for _ in 0..num_lines` loop (lines 468–483): each iteration
resets `x` to `wrap_bbox.min.0`, runs `wrapPass` over the whole string, and
then drops `y` by one line height; an early exit from `wrapPass` returns
immediately.  After the loop, return `y_start - y`. -/
def wrapLines {σ : Type} (A : AllocatorImpl σ) (face : Char → Glyph)
    (text_color : Color) (wrap_bbox : Bbox) (y_start : ℚ) (s : List Char) :
    ℕ → TextRendererState σ → ℚ → Option (TextRendererState σ × ℚ)
  | 0, st, y => some (st, y_start - y)
  | n + 1, st, y =>
    match wrapPass A face text_color wrap_bbox y_start s st wrap_bbox.min.1 y with
    | none => none
    | some (.inr r) => some r
    | some (.inl (st1, _, y1)) =>
      wrapLines A face text_color wrap_bbox y_start s n st1 (y1 - line_height st1)

/-- `TextRenderer::add_string_to_batch`.  Returns the new state and the
vertical space consumed (`y_start - y`); `none` models a panic. -/
def add_string_to_batch {σ : Type} (A : AllocatorImpl σ) (face : Char → Glyph)
    (s : List Char) (x y : ℚ) (text_color : Color) (wrap_bbox : Option Bbox)
    (st : TextRendererState σ) : Option (TextRendererState σ × ℚ) :=
  let y1 : ℚ := (Rat.floor y : ℤ) - line_height st
  let y_start := y1
  let x1 : ℚ := (Rat.floor x : ℤ)
  match wrap_bbox with
  | some wb =>
    match measureLen A face s st 0 with
    | none => none
    | some (st1, len) =>
      let num_lines := (⌈len / wb.width⌉ : ℤ).toNat
      wrapLines A face text_color wb y_start s num_lines st1 y1
  | none =>
    match drawChars A face text_color s st x1 y1 with
    | none => none
    | some (st1, _, y2) => some (st1, y_start - y2)

/-- `TextRenderer::add_multiline_string_to_batch` (lines 496–510): apply
`add_string_to_batch` per line, dropping the pen `y` by each line's consumed
height.  The Rust function returns `()`; the model also returns the final
pen `y` so that the pen movement is observable. -/
def add_multiline_string_to_batch {σ : Type} (A : AllocatorImpl σ)
    (face : Char → Glyph) (text : List (List Char)) (x y : ℚ)
    (text_color : Color) (wrap_bbox : Option Bbox)
    (st : TextRendererState σ) : Option (TextRendererState σ × ℚ) :=
  match text with
  | [] => some (st, y)
  | line :: rest =>
    match add_string_to_batch A face line x y text_color wrap_bbox st with
    | none => none
    | some (st1, h) =>
      add_multiline_string_to_batch A face rest x (y - h) text_color wrap_bbox st1

/-! ## A concrete allocator for closed evaluations -/

/-- Modelled from the spec: the Rectangle Packing Allocator (§4.1) — the
code's allocator is the external `etagere` crate, which is not part of this
repository.  Per §4.1 it returns a free axis-aligned region of at least the
requested size within fixed bounds, or nothing if none fits, and "any shelf
or guillotine-style strategy satisfies this".  This is a minimal shelf
strategy: `shelves` is the list of open shelves `(y, height, xUsed)` stacked
from `y = 0`, `yUsed` the first free row. -/
structure ShelfState where
  atlasW : ℕ
  atlasH : ℕ
  shelves : List (ℕ × ℕ × ℕ)
  yUsed : ℕ
  nextId : ℕ
  deriving DecidableEq, Repr

/-- First-fit search of the open shelves; returns the placed min corner and
the updated shelf list. -/
def fitShelf (w h atlasW : ℕ) : List (ℕ × ℕ × ℕ) → Option (ℕ × ℕ × List (ℕ × ℕ × ℕ))
  | [] => none
  | (y0, sh, xu) :: rest =>
    if h ≤ sh ∧ xu + w ≤ atlasW then some (xu, y0, (y0, sh, xu + w) :: rest)
    else
      match fitShelf w h atlasW rest with
      | none => none
      | some (x, y, rest') => some (x, y, (y0, sh, xu) :: rest')

/-- Modelled from the spec (§4.1): allocate on an existing shelf, else open
a new shelf below the used rows, else fail. -/
def shelfAllocate (s : ShelfState) (w h : ℕ) : Option (Allocation × ShelfState) :=
  match fitShelf w h s.atlasW s.shelves with
  | some (x, y, shelves') =>
    some ({ id := s.nextId, minX := x, minY := y },
          { s with shelves := shelves', nextId := s.nextId + 1 })
  | none =>
    if s.yUsed + h ≤ s.atlasH ∧ w ≤ s.atlasW then
      some ({ id := s.nextId, minX := 0, minY := s.yUsed },
            { s with shelves := s.shelves ++ [(s.yUsed, h, w)],
                     yUsed := s.yUsed + h, nextId := s.nextId + 1 })
    else none

/-- Modelled from the spec (§4.1): `deallocate` returns the region to the
free pool.  None of the closed evaluations below ever frees a region, so
reclamation is not modelled: `deallocate` is the identity here. -/
def shelfDeallocate (s : ShelfState) (_id : ℕ) : ShelfState := s

/-- The shelf allocator packaged behind the allocator interface. -/
def shelfAllocator : AllocatorImpl ShelfState :=
  { allocate := shelfAllocate, deallocate := shelfDeallocate }

/-- A fresh shelf allocator state for a `256 × 256` atlas
(`generate_img_atlas(256.0)`). -/
def shelfInit : ShelfState :=
  { atlasW := 256, atlasH := 256, shelves := [], yUsed := 0, nextId := 0 }

/-- The fresh `TextRenderer` state built by `TextRenderer::new`: empty
batch, empty cache, `256 × 256` atlas, `font_size = 18`. -/
def initState : TextRendererState ShelfState :=
  { vertices := [], indices := [], allocations := [], allocState := shelfInit,
    atlasSize := 256, fontSize := 18, rasterized := [], uploads := [] }

/-- A face whose every glyph has a `4 × 4` bitmap and a uniform advance of
10 pixels (`advance().x = 640` in 26.6 fixed point). -/
def uniFace : Char → Glyph := fun _ =>
  { advanceX := 640, advanceY := 0, width := 4, height := 4,
    bitmapLeft := 0, bitmapTop := 4 }

/-- A face whose every glyph has a `300 × 300` bitmap: padded to
`302 × 302`, larger than the whole `256 × 256` atlas. -/
def bigFace : Char → Glyph := fun _ =>
  { advanceX := 640, advanceY := 0, width := 300, height := 300,
    bitmapLeft := 0, bitmapTop := 300 }

/-- A face whose every glyph has a zero-size bitmap (as FreeType produces
for invisible non-whitespace characters). -/
def zeroFace : Char → Glyph := fun _ =>
  { advanceX := 640, advanceY := 0, width := 0, height := 0,
    bitmapLeft := 0, bitmapTop := 0 }

/-- An arbitrary text color. -/
def color0 : Color := (1, 0, 0, 1)

/-- An allocator with no usable space at all: every allocation fails.
Used to instantiate the abstract allocator hypothesis "the padded bitmap
never fits" in closed witnesses. -/
def failAllocator : AllocatorImpl Unit :=
  { allocate := fun _ _ _ => none, deallocate := fun s _ => s }

/-- The fresh renderer state over the `failAllocator` state type. -/
def initStateU : TextRendererState Unit :=
  { vertices := [], indices := [], allocations := [], allocState := (),
    atlasSize := 256, fontSize := 18, rasterized := [], uploads := [] }

/-- The state reached from `initState` by caching `'a'` under `uniFace`:
the `4 × 4` bitmap is padded to `6 × 6` and placed on a fresh shelf at the
atlas origin. -/
def stateAfterA : TextRendererState ShelfState :=
  { vertices := [], indices := [],
    allocations := [('a', rasterAtlasChar (uniFace 'a') { id := 0, minX := 0, minY := 0 })],
    allocState := { atlasW := 256, atlasH := 256, shelves := [(0, 6, 6)],
                    yUsed := 6, nextId := 1 },
    atlasSize := 256, fontSize := 18, rasterized := ['a'],
    uploads := [{ char := 'a', originX := 0, originY := 0, width := 6, height := 6 }] }

/-- The quad-batch well-formedness invariant (claim C10): the index list
holds `6·k` entries and the vertex list `4·k` entries for the same `k`, and
every stored index is strictly below the vertex count. -/
def batchWF {σ : Type} (st : TextRendererState σ) : Prop :=
  ∃ k : ℕ, st.indices.length = 6 * k ∧ st.vertices.length = 4 * k ∧
    ∀ i ∈ st.indices, i < st.vertices.length

/-! ### Claims C7 and C3 -/

/-- **C7.** For an `Hbox` with 3 children and parent box `(0,0)-(300,100)`,
`Container::layout` assigns the children the x-ranges `[0,100)`, `[100,200)`,
`[200,300)` in insertion order, each spanning the full height of the parent
box; in general the child at insertion index `i` of an `Hbox` with `n`
children occupies the x-range
`[B.minX + i·(B.width/n), B.minX + (i+1)·(B.width/n))` and the full height
of `B`. -/
theorem hbox_children_partition_width (n i : ℕ) (B : Bbox) (_hi : i < n) :
    childBbox true n i B =
      Bbox.new (B.min.1 + (i : ℚ) * (B.width / n)) B.min.2
        (B.min.1 + ((i : ℚ) + 1) * (B.width / n)) B.max.2 ∧
    childBbox true 3 0 (Bbox.new 0 0 300 100) = Bbox.new 0 0 100 100 ∧
    childBbox true 3 1 (Bbox.new 0 0 300 100) = Bbox.new 100 0 200 100 ∧
    childBbox true 3 2 (Bbox.new 0 0 300 100) = Bbox.new 200 0 300 100 := by
  refine ⟨?_, by with_unfolding_all decide, by with_unfolding_all decide,
    by with_unfolding_all decide⟩
  unfold childBbox
  rw [if_pos rfl]
  simp only [Bbox.new, Bbox.mk.injEq, Prod.mk.injEq]
  refine ⟨⟨by ring, trivial⟩, by ring, trivial⟩

/-- Witness for `hbox_children_partition_width` at `n = 3`, `i = 1`,
`B = (0,0)-(300,100)`. -/
theorem hbox_children_partition_width_witness :
    childBbox true 3 1 (Bbox.new 0 0 300 100) =
      Bbox.new ((Bbox.new 0 0 300 100).min.1 + (1 : ℚ) * ((Bbox.new 0 0 300 100).width / 3))
        (Bbox.new 0 0 300 100).min.2
        ((Bbox.new 0 0 300 100).min.1 + ((1 : ℚ) + 1) * ((Bbox.new 0 0 300 100).width / 3))
        (Bbox.new 0 0 300 100).max.2 :=
  (hbox_children_partition_width 3 1 (Bbox.new 0 0 300 100) (by decide)).1

/-- **C3 (counterexample).** The claim asserts that for a `Vbox` with 2
children and parent box `(0,0)-(100,200)` the first-inserted child occupies
the y-range `[0,100)`.  It does not: the code assigns the first-inserted
child (`child_index = n - i - 1 = 1`) the y-range `[100,200)` — the *top*
row — and the second-inserted child the y-range `[0,100)`. -/
theorem vbox_first_child_not_bottom :
    childBbox false 2 0 (Bbox.new 0 0 100 200) = Bbox.new 0 100 100 200 ∧
    childBbox false 2 0 (Bbox.new 0 0 100 200) ≠ Bbox.new 0 0 100 100 ∧
    childBbox false 2 1 (Bbox.new 0 0 100 200) = Bbox.new 0 0 100 100 := by
  refine ⟨by with_unfolding_all decide, by with_unfolding_all decide,
    by with_unfolding_all decide⟩

/-- **C3 (amended).** For a `Vbox` with 2 children and parent box
`(0,0)-(100,200)`, the layout assigns the *first*-inserted child the y-range
`[100,200)` (the top row, y increasing upward) and the *second*-inserted
child `[0,100)`; in general, for a `Vbox` with `n` children, the child at
insertion index `i` occupies the row at position `i` counted from the top,
i.e. the y-range
`[B.minY + (n-1-i)·(B.height/n), B.minY + (n-i)·(B.height/n))`, with the
full width of `B`: the first-inserted child ends up in the *top* row and the
last-inserted child in the *bottom* row. -/
theorem vbox_children_partition_height (n i : ℕ) (B : Bbox) (hi : i < n) :
    childBbox false n i B =
      Bbox.new B.min.1 (B.min.2 + ((n - 1 - i : ℕ) : ℚ) * (B.height / n))
        B.max.1 (B.min.2 + ((n - i : ℕ) : ℚ) * (B.height / n)) ∧
    childBbox false 2 0 (Bbox.new 0 0 100 200) = Bbox.new 0 100 100 200 ∧
    childBbox false 2 1 (Bbox.new 0 0 100 200) = Bbox.new 0 0 100 100 := by
  refine ⟨?_, by with_unfolding_all decide, by with_unfolding_all decide⟩
  have h1 : n - i - 1 = n - 1 - i := by omega
  have hcast : ((n - i : ℕ) : ℚ) = ((n - 1 - i : ℕ) : ℚ) + 1 := by
    have h2 : n - i = (n - 1 - i) + 1 := by omega
    rw [h2]
    push_cast
    ring
  unfold childBbox
  rw [if_neg (by simp)]
  rw [h1, hcast]
  simp only [Bbox.new, Bbox.mk.injEq, Prod.mk.injEq]
  refine ⟨⟨trivial, by ring⟩, trivial, by ring⟩

/-- Witness for `vbox_children_partition_height` at `n = 2`, `i = 0`,
`B = (0,0)-(100,200)`. -/
theorem vbox_children_partition_height_witness :
    childBbox false 2 0 (Bbox.new 0 0 100 200) =
      Bbox.new (Bbox.new 0 0 100 200).min.1
        ((Bbox.new 0 0 100 200).min.2 + ((2 - 1 - 0 : ℕ) : ℚ) * ((Bbox.new 0 0 100 200).height / 2))
        (Bbox.new 0 0 100 200).max.1
        ((Bbox.new 0 0 100 200).min.2 + ((2 - 0 : ℕ) : ℚ) * ((Bbox.new 0 0 100 200).height / 2)) :=
  (vbox_children_partition_height 2 0 (Bbox.new 0 0 100 200) (by decide)).1


/-! ### Claim C8 -/

/-- **C8.** For every origin, color and optional wrap box, laying out the
empty string consumes exactly zero height (and leaves the state untouched);
correspondingly `add_multiline_string_to_batch` on an empty line list
leaves the state and the pen origin unchanged. -/
theorem add_string_empty_zero_height {σ : Type} (A : AllocatorImpl σ)
    (face : Char → Glyph) (x y : ℚ) (text_color : Color)
    (wrap_bbox : Option Bbox) (st : TextRendererState σ) :
    add_string_to_batch A face [] x y text_color wrap_bbox st = some (st, 0) ∧
    add_multiline_string_to_batch A face [] x y text_color wrap_bbox st = some (st, y) := by
  constructor
  · cases wrap_bbox with
    | none => simp [add_string_to_batch, drawChars]
    | some wb =>
      simp only [add_string_to_batch, measureLen]
      have hceil : ((⌈(0 : ℚ) / wb.width⌉ : ℤ)).toNat = 0 := by
        rw [zero_div, Int.ceil_zero]
        rfl
      rw [hceil]
      simp [wrapLines]
  · rfl

/-! ### LRU cache lemmas -/

theorem lookup_lruRemove_ne (c d : Char) (l : LruList) (h : ¬ d = c) :
    (lruRemove c l).lookup d = l.lookup d := by
  have hbeq : (d == c) = false := by
    simp [h]
  induction l with
  | nil => rfl
  | cons e rest ih =>
    obtain ⟨k, v⟩ := e
    by_cases hk : k = c
    · subst hk
      simp [lruRemove, List.lookup, hbeq, ih]
    · simp only [lruRemove, if_neg hk]
      cases hdk : (d == k) <;> simp [List.lookup, hdk, ih]

theorem lruGet_eq_none (c : Char) (l : LruList) (h : l.lookup c = none) :
    lruGet c l = none := by
  simp [lruGet, h]

theorem lruGet_eq_some (c : Char) (l : LruList) (v : AtlasChar)
    (h : l.lookup c = some v) :
    lruGet c l = some (v, (c, v) :: lruRemove c l) := by
  simp [lruGet, h]

/-! ### Claim C6 -/

/-- **C6.** Caching a whitespace-class character leaves the rectangle
packing allocator state completely unchanged, performs no texture upload,
and never evicts any cached glyph (every other character's cache entry is
untouched); the entry cached for the character itself (synthesized on a
miss) holds only the advance metrics — its `alloc` region is `None` and its
`pos` is `(0, 0)`. -/
theorem cache_char_whitespace_no_alloc {σ : Type} (A : AllocatorImpl σ)
    (face : Char → Glyph) (c : Char) (st : TextRendererState σ)
    (hw : rustIsWhitespace c = true) :
    ∃ st', cache_char A face c st = some st' ∧
      st'.allocState = st.allocState ∧
      st'.uploads = st.uploads ∧
      st'.vertices = st.vertices ∧
      st'.indices = st.indices ∧
      (∀ d, ¬ d = c → st'.allocations.lookup d = st.allocations.lookup d) ∧
      (st'.allocations.lookup c).isSome ∧
      (st.allocations.lookup c = none →
        st'.allocations.lookup c = some (whitespaceAtlasChar (face c))) := by
  cases hlook : st.allocations.lookup c with
  | some v =>
    refine ⟨{ st with allocations := (c, v) :: lruRemove c st.allocations }, ?_, rfl, rfl,
      rfl, rfl, ?_, ?_, ?_⟩
    · simp [cache_char, lruGet_eq_some c _ v hlook]
    · intro d hd
      have hbeq : (d == c) = false := by
        simp [hd]
      simp [List.lookup, hbeq, lookup_lruRemove_ne c d _ hd]
    · simp [List.lookup]
    · intro hnone
      exact Option.noConfusion hnone
  | none =>
    refine ⟨{ st with
        rasterized := st.rasterized ++ [c],
        allocations := lruPut c (whitespaceAtlasChar (face c)) st.allocations },
      ?_, rfl, rfl, rfl, rfl, ?_, ?_, ?_⟩
    · simp [cache_char, lruGet_eq_none c _ hlook, hw]
    · intro d hd
      have hbeq : (d == c) = false := by
        simp [hd]
      simp [lruPut, List.lookup, hbeq, lookup_lruRemove_ne c d _ hd]
    · simp [lruPut, List.lookup]
    · intro _
      simp [lruPut, List.lookup]

/-- Witness for `cache_char_whitespace_no_alloc` at `c = ' '` on the fresh
state (the space character, code point `0x20`, is whitespace-class). -/
theorem cache_char_whitespace_no_alloc_witness :
    ∃ st', cache_char shelfAllocator uniFace ' ' initState = some st' ∧
      st'.allocState = initState.allocState ∧
      st'.uploads = initState.uploads ∧
      st'.vertices = initState.vertices ∧
      st'.indices = initState.indices ∧
      (∀ d, ¬ d = ' ' → st'.allocations.lookup d = initState.allocations.lookup d) ∧
      (st'.allocations.lookup ' ').isSome ∧
      (initState.allocations.lookup ' ' = none →
        st'.allocations.lookup ' ' = some (whitespaceAtlasChar (uniFace ' '))) :=
  cache_char_whitespace_no_alloc shelfAllocator uniFace ' ' initState (by decide)

/-! ### Claim C9 -/

/-- **C9.** A non-whitespace character whose rasterized bitmap has zero
width or zero height is never inserted into the cache: `cache_char` returns
with the state unchanged apart from the rasterization log.  The per-character
draw step `add_char_to_batch` on any state that has no cache entry for the
character emits no quad and does not advance the pen at all, so such a
character contributes zero advance to measurement and placement. -/
theorem zero_size_glyph_no_cache_no_advance {σ : Type} (A : AllocatorImpl σ)
    (face : Char → Glyph) (c : Char) (st t : TextRendererState σ)
    (x y : ℚ) (text_color : Color)
    (hw : rustIsWhitespace c = false)
    (hz : (face c).width = 0 ∨ (face c).height = 0)
    (hmiss : st.allocations.lookup c = none)
    (hmiss' : t.allocations.lookup c = none) :
    cache_char A face c st = some { st with rasterized := st.rasterized ++ [c] } ∧
    add_char_to_batch c text_color t x y = (t, x, y) := by
  constructor
  · have hz' : ((face c).width = 0 ∨ (face c).height = 0) = True := by
      simp [hz]
    simp [cache_char, lruGet_eq_none c _ hmiss, hw, hz']
  · simp [add_char_to_batch, lruGet_eq_none c _ hmiss']

/-- Witness for `zero_size_glyph_no_cache_no_advance`: the letter `x` under
`zeroFace` on the fresh state. -/
theorem zero_size_glyph_no_cache_no_advance_witness :
    cache_char shelfAllocator zeroFace 'x' initState =
      some { initState with rasterized := initState.rasterized ++ ['x'] } ∧
    add_char_to_batch 'x' color0 initState 0 0 = (initState, 0, 0) :=
  zero_size_glyph_no_cache_no_advance shelfAllocator zeroFace 'x' initState initState
    0 0 color0 (by decide) (Or.inl (by decide)) (by decide) (by decide)

/-! ### Claim C4 -/

theorem not_mem_keys_lruRemove (c : Char) (l : LruList) :
    ¬ c ∈ (lruRemove c l).map Prod.fst := by
  induction l with
  | nil => simp [lruRemove]
  | cons e rest ih =>
    obtain ⟨k, v⟩ := e
    by_cases hk : k = c
    · simpa [lruRemove, hk] using ih
    · simp only [lruRemove, if_neg hk, List.map_cons, List.mem_cons]
      intro h
      rcases h with h | h
      · exact hk h.symm
      · exact ih h

theorem lruRemove_eq_self (c : Char) (l : LruList)
    (h : ¬ c ∈ l.map Prod.fst) : lruRemove c l = l := by
  induction l with
  | nil => rfl
  | cons e rest ih =>
    obtain ⟨k, v⟩ := e
    simp only [List.map_cons, List.mem_cons] at h
    push_neg at h
    have hk : ¬ k = c := fun hkc => h.1 hkc.symm
    simp only [lruRemove, if_neg hk]
    rw [ih h.2]

/-- Every successful exit of the eviction loop leaves the just-inserted
character at the front of the recency list, with no other entry for it. -/
theorem evictLoop_front {σ : Type} (A : AllocatorImpl σ) (c : Char) (g : Glyph) :
    ∀ (fuel : ℕ) (st st' : TextRendererState σ),
      evictLoop A c g fuel st = some st' →
      ∃ v rest, st'.allocations = (c, v) :: rest ∧ ¬ c ∈ rest.map Prod.fst := by
  intro fuel
  induction fuel with
  | zero =>
    intro st st' h
    exact Option.noConfusion h
  | succ n ih =>
    intro st st' h
    rw [evictLoop] at h
    cases halloc : A.allocate st.allocState (g.width + 2) (g.height + 2) with
    | some pr =>
      rw [halloc] at h
      obtain ⟨alloc, as'⟩ := pr
      cases h
      exact ⟨rasterAtlasChar g alloc, lruRemove c st.allocations, rfl,
        not_mem_keys_lruRemove c st.allocations⟩
    | none =>
      rw [halloc] at h
      cases hp : popLru st.allocations with
      | none =>
        rw [hp] at h
        exact Option.noConfusion h
      | some pr =>
        rw [hp] at h
        obtain ⟨⟨d, v⟩, rest⟩ := pr
        exact ih _ _ h

/-- After any successful `cache_char`, either the character sits at the
front of the recency list with no duplicate, or nothing was inserted (the
zero-size path) and the cache still has no entry for it. -/
theorem cache_char_front {σ : Type} (A : AllocatorImpl σ) (face : Char → Glyph)
    (c : Char) (st st1 : TextRendererState σ)
    (h : cache_char A face c st = some st1) :
    (∃ v rest, st1.allocations = (c, v) :: rest ∧ ¬ c ∈ rest.map Prod.fst) ∨
      st1.allocations.lookup c = none := by
  unfold cache_char at h
  cases hlook : st.allocations.lookup c with
  | some v =>
    rw [lruGet_eq_some c _ v hlook] at h
    cases h
    exact Or.inl ⟨v, lruRemove c st.allocations, rfl, not_mem_keys_lruRemove c _⟩
  | none =>
    rw [lruGet_eq_none c _ hlook] at h
    by_cases hw : rustIsWhitespace c
    · rw [if_pos hw] at h
      cases h
      exact Or.inl ⟨whitespaceAtlasChar (face c), lruRemove c st.allocations, rfl,
        not_mem_keys_lruRemove c _⟩
    · rw [if_neg hw] at h
      by_cases hz : (face c).width = 0 ∨ (face c).height = 0
      · rw [if_pos hz] at h
        cases h
        exact Or.inr hlook
      · rw [if_neg hz] at h
        exact Or.inl (evictLoop_front A c (face c) _ _ _ h)

/-- **C4 (counterexample).** The claim asserts that for *every* character a
second consecutive `cache_char` performs no second rasterization.  A
non-whitespace character whose bitmap is zero-size (here `'x'` under
`zeroFace`) is never inserted into the cache, so the second call rasterizes
it again: after two consecutive calls the rasterization log is
`['x', 'x']`. -/
theorem cache_char_second_rasterization_counterexample :
    ((cache_char shelfAllocator zeroFace 'x' initState).bind
        (cache_char shelfAllocator zeroFace 'x')).map
      TextRendererState.rasterized = some ['x', 'x'] := by
  with_unfolding_all decide

/-- **C4 (amended).** For every character that the first `cache_char` call
actually caches (a whitespace character, or one whose nonzero-size bitmap
was successfully placed), the second consecutive call is a no-op: it
returns the very same state — identical cached data, no new rasterization,
no new upload, no allocator change and no eviction.  (A non-whitespace
character with a zero-size bitmap is never cached and is re-rasterized by
each call, though it is never uploaded and the cache state never changes.) -/
theorem cache_char_idempotent_when_cached {σ : Type} (A : AllocatorImpl σ)
    (face : Char → Glyph) (c : Char) (st st1 : TextRendererState σ)
    (h1 : cache_char A face c st = some st1)
    (hc : (st1.allocations.lookup c).isSome = true) :
    cache_char A face c st1 = some st1 := by
  rcases cache_char_front A face c st st1 h1 with ⟨v, rest, hfront, hnot⟩ | hnone
  · have hlook1 : st1.allocations.lookup c = some v := by
      rw [hfront]
      simp [List.lookup]
    have hremove : lruRemove c st1.allocations = rest := by
      rw [hfront]
      simp only [lruRemove, if_pos rfl]
      exact lruRemove_eq_self c rest hnot
    unfold cache_char
    rw [lruGet_eq_some c _ v hlook1, hremove, ← hfront]
  · rw [hnone] at hc
    exact Bool.noConfusion hc

/-- Witness for `cache_char_idempotent_when_cached`: caching `'a'` under
`uniFace` from the fresh state yields `stateAfterA`, and a second call
returns `stateAfterA` unchanged. -/
theorem cache_char_idempotent_when_cached_witness :
    cache_char shelfAllocator uniFace 'a' stateAfterA = some stateAfterA :=
  cache_char_idempotent_when_cached shelfAllocator uniFace 'a' initState stateAfterA
    (by with_unfolding_all decide) (by with_unfolding_all decide)

/-! ### Claim C1 -/

/-- **C1 (counterexample).** The claim asserts that requesting a glyph whose
padded bitmap exceeds the atlas dimensions, starting from an empty cache,
returns a `GlyphTooLarge` error rather than diverging or aborting.  The code
has no `GlyphTooLarge` (or any other) error path: `cache_char` returns `()`
and, when allocation fails on an empty cache, executes
`self.atlas.allocations.pop_lru().unwrap()` on `None` — a panic, modelled as
`none`.  Concretely: a `300 × 300` glyph (padded to `302 × 302`, larger than
the `256 × 256` atlas) on the fresh empty-cache state panics. -/
theorem cache_char_too_large_no_error_counterexample :
    cache_char shelfAllocator bigFace 'A' initState = none := by
  with_unfolding_all decide

/-- **C1 (amended).** For every non-whitespace character with a
nonzero-size bitmap that is not yet cached, if the allocator can never place
the padded `(width+2) × (height+2)` bitmap (as for a glyph larger than the
whole atlas), `cache_char` *panics* (`pop_lru().unwrap()` on an empty
cache): the eviction loop repeats until the cache is empty and then aborts.
No `GlyphTooLarge` error value exists in the code. -/
theorem cache_char_too_large_panics {σ : Type} (A : AllocatorImpl σ)
    (face : Char → Glyph) (c : Char) (st : TextRendererState σ)
    (hw : rustIsWhitespace c = false)
    (hzw : ¬ (face c).width = 0) (hzh : ¬ (face c).height = 0)
    (hmiss : st.allocations.lookup c = none)
    (hfail : ∀ s : σ, A.allocate s ((face c).width + 2) ((face c).height + 2) = none) :
    cache_char A face c st = none := by
  have hloop : ∀ (fuel : ℕ) (t : TextRendererState σ),
      evictLoop A c (face c) fuel t = none := by
    intro fuel
    induction fuel with
    | zero => intro t; rfl
    | succ n ih =>
      intro t
      rw [evictLoop, hfail]
      cases hp : popLru t.allocations with
      | none => rfl
      | some pr =>
        obtain ⟨⟨d, v⟩, rest⟩ := pr
        exact ih _
  have hz : ¬ ((face c).width = 0 ∨ (face c).height = 0) := by
    intro hor
    rcases hor with h | h
    · exact hzw h
    · exact hzh h
  unfold cache_char
  rw [lruGet_eq_none c _ hmiss]
  simp only [hw, Bool.false_eq_true, if_false, if_neg hz]
  exact hloop _ _

/-- Witness for `cache_char_too_large_panics`: the `failAllocator` (no
allocation ever fits) with `bigFace` on the fresh empty cache. -/
theorem cache_char_too_large_panics_witness :
    cache_char failAllocator bigFace 'A' initStateU = none :=
  cache_char_too_large_panics failAllocator bigFace 'A' initStateU
    (by decide) (by decide) (by decide) rfl (fun _ => rfl)

/-! ### Claim C5 -/

/-- **C5 (counterexample).** The claim asserts that *whenever* the pen's y
position falls outside the wrap box vertically the function stops
immediately.  It does not: the vertical check is skipped on the iteration
that wraps (the `else if` is not reached after `x > wrap_bbox.max.0`), so
the character right after a wrap is still drawn at the out-of-bounds pen.
Concretely, six 10-pixel-advance glyphs in the box `(0,0)-(30,20)` from
origin `(0,20)` (pen `y` starts at `2`): four glyphs are drawn at `y = 2`,
the fifth character wraps the pen to `y = -16` — outside `[0,20]` — and is
*still drawn* there (a fifth quad, 20 vertices instead of 16) before the
sixth character's check finally truncates, returning height `18`. -/
theorem wrap_truncation_not_immediate_counterexample :
    (add_string_to_batch shelfAllocator uniFace (List.replicate 6 'a') 0 20
        color0 (some (Bbox.new 0 0 30 20)) initState).map
      (fun p => (p.1.vertices.length, p.2)) = some (20, 18) := by
  with_unfolding_all decide

/-- **C5 (amended).** With a wrap box, the pen's position is tested at each
character boundary except on an iteration that just wrapped: whenever the
per-character check runs (`x ≤ wrap_box.maxX`) and the pen is outside the
box (in particular vertically), `add_string_to_batch` stops at once — no
further character is cached or drawn and the state is unchanged from that
point — and the height consumed so far, `y_start - y`, is returned as an
ordinary value through the outer loop (`Sum.inr` propagates to the result),
never an error; the height is the partial height consumed, not the full
unwrapped height.  (A character drawn by the wrapping iteration itself can
still land outside the box, as the counterexample shows.) -/
theorem wrap_truncation_stops_at_check {σ : Type} (A : AllocatorImpl σ)
    (face : Char → Glyph) (text_color : Color) (wb : Bbox) (y_start : ℚ)
    (c : Char) (cs : List Char) (st : TextRendererState σ) (x y : ℚ)
    (hx : ¬ x > wb.max.1)
    (hout : wb.inside (x, y) = false) :
    wrapPass A face text_color wb y_start (c :: cs) st x y =
      some (.inr (st, y_start - y)) ∧
    (∀ (s : List Char) (n : ℕ) (st0 : TextRendererState σ) (y0 : ℚ)
        (r : TextRendererState σ × ℚ),
      wrapPass A face text_color wb y_start s st0 wb.min.1 y0 = some (.inr r) →
      wrapLines A face text_color wb y_start s (n + 1) st0 y0 = some r) := by
  constructor
  · rw [wrapPass, if_neg hx, if_pos (by simp [hout])]
  · intro s n st0 y0 r h
    simp only [wrapLines, h]

/-- Witness for `wrap_truncation_stops_at_check` at the counterexample's
truncation point: pen `(10, -16)`, box `(0,0)-(30,20)`, `y_start = 2`. -/
theorem wrap_truncation_stops_at_check_witness :
    wrapPass shelfAllocator uniFace color0 (Bbox.new 0 0 30 20) 2 ['a']
      initState 10 (-16) = some (.inr (initState, 2 - (-16))) :=
  (wrap_truncation_stops_at_check shelfAllocator uniFace color0
    (Bbox.new 0 0 30 20) 2 'a' [] initState 10 (-16)
    (by with_unfolding_all decide) (by with_unfolding_all decide)).1

/-! ### Claim C2 -/

/-- **C2 (the code's actual behaviour at the claimed input).** Ten
uniform-width glyphs (advance 10) with a wrap box of width exactly 3
advances (`(0,0)-(30,1000)`, origin at its top-left corner `(0,1000)`): the
claim says the text wraps into `ceil(10/3) = 4` lines and consumes
`4 × line_height = 72`.  The code instead consumes `12 × line_height = 216`:
the `for _ in 0..num_lines` loop re-lays-out the *entire* string on each of
its `num_lines = 4` iterations, and each such pass itself wraps the ten
glyphs into 3 rows (the pen also only wraps once `x` strictly exceeds
`maxX`, so a line fits 4 glyphs, not 3), duplicating the drawn text four
times down the page. -/
theorem add_string_wrap_height_eval :
    (add_string_to_batch shelfAllocator uniFace (List.replicate 10 'a') 0 1000
        color0 (some (Bbox.new 0 0 30 1000)) initState).map Prod.snd =
      some 216 ∧
    ¬ (216 : ℚ) = 4 * 18 := by
  constructor
  · with_unfolding_all decide
  · with_unfolding_all decide

/-! ### Claim C10 -/

theorem evictLoop_batch_eq {σ : Type} (A : AllocatorImpl σ) (c : Char) (g : Glyph) :
    ∀ (fuel : ℕ) (st st' : TextRendererState σ),
      evictLoop A c g fuel st = some st' →
      st'.vertices = st.vertices ∧ st'.indices = st.indices := by
  intro fuel
  induction fuel with
  | zero =>
    intro st st' h
    exact Option.noConfusion h
  | succ n ih =>
    intro st st' h
    rw [evictLoop] at h
    split at h
    · cases h
      exact ⟨rfl, rfl⟩
    · split at h
      · exact Option.noConfusion h
      · dsimp only at h
        have hrec := ih _ _ h
        exact hrec

/-- `cache_char` never touches the quad batch. -/
theorem cache_char_batch_eq {σ : Type} (A : AllocatorImpl σ) (face : Char → Glyph)
    (c : Char) (st st' : TextRendererState σ)
    (h : cache_char A face c st = some st') :
    st'.vertices = st.vertices ∧ st'.indices = st.indices := by
  unfold cache_char at h
  split at h
  · cases h
    exact ⟨rfl, rfl⟩
  · dsimp only at h
    split at h
    · cases h
      exact ⟨rfl, rfl⟩
    · split at h
      · cases h
        exact ⟨rfl, rfl⟩
      · have hrec := evictLoop_batch_eq A c (face c) _ _ _ h
        exact hrec

theorem batchWF_of_batch_eq {σ τ : Type} (st : TextRendererState σ)
    (st' : TextRendererState τ) (hv : st'.vertices = st.vertices)
    (hi : st'.indices = st.indices) (h : batchWF st) : batchWF st' := by
  obtain ⟨k, h6, h4, hb⟩ := h
  exact ⟨k, by rw [hi]; exact h6, by rw [hv]; exact h4, by rw [hi, hv]; exact hb⟩

/-- One `add_char_to_batch` call preserves the batch invariant: it either
leaves the batch alone or appends exactly 6 indices and 4 vertices, and
each appended index (computed mod `2^16`) is below the new vertex count. -/
theorem add_char_to_batch_wf {σ : Type} (c : Char) (text_color : Color)
    (st : TextRendererState σ) (x y : ℚ) (h : batchWF st) :
    batchWF (add_char_to_batch c text_color st x y).1 := by
  obtain ⟨k, h6, h4, hb⟩ := h
  unfold add_char_to_batch
  split
  · exact ⟨k, h6, h4, hb⟩
  · split
    · exact ⟨k, h6, h4, hb⟩
    · have ek : 6 * k / 6 = k := by omega
      refine ⟨k + 1, ?_, ?_, ?_⟩
      · simp only [List.length_append, List.length_cons, List.length_nil, h6]
        omega
      · simp only [List.length_append, List.length_cons, List.length_nil, h4]
        omega
      · intro i hmem
        simp only [List.mem_append, List.mem_cons, List.not_mem_nil, or_false, h6, ek] at hmem
        simp only [List.length_append, List.length_cons, List.length_nil, h4]
        rcases hmem with hold | hnew
        · have hi := hb i hold
          rw [h4] at hi
          omega
        · rcases hnew with rfl | rfl | rfl | rfl | rfl | rfl <;> omega

theorem drawChars_wf {σ : Type} (A : AllocatorImpl σ) (face : Char → Glyph)
    (text_color : Color) :
    ∀ (cs : List Char) (st : TextRendererState σ) (x y : ℚ)
      (st' : TextRendererState σ) (x' y' : ℚ), batchWF st →
      drawChars A face text_color cs st x y = some (st', x', y') → batchWF st' := by
  intro cs
  induction cs with
  | nil =>
    intro st x y st' x' y' hwf h
    rw [drawChars] at h
    cases h
    exact hwf
  | cons c rest ih =>
    intro st x y st' x' y' hwf h
    rw [drawChars] at h
    split at h
    · exact Option.noConfusion h
    · next st1 hc =>
      obtain ⟨hv, hi⟩ := cache_char_batch_eq A face c st st1 hc
      exact ih _ _ _ _ _ _
        (add_char_to_batch_wf c text_color st1 x y (batchWF_of_batch_eq st st1 hv hi hwf)) h

theorem wrapPass_wf {σ : Type} (A : AllocatorImpl σ) (face : Char → Glyph)
    (text_color : Color) (wb : Bbox) (y_start : ℚ) :
    ∀ (cs : List Char) (st : TextRendererState σ) (x y : ℚ) r, batchWF st →
      wrapPass A face text_color wb y_start cs st x y = some r →
      (∀ st1 x1 y1, r = .inl (st1, x1, y1) → batchWF st1) ∧
      (∀ st1 h1, r = .inr (st1, h1) → batchWF st1) := by
  intro cs
  induction cs with
  | nil =>
    intro st x y r hwf h
    rw [wrapPass] at h
    cases h
    constructor
    · intro st1 x1 y1 he
      cases he
      exact hwf
    · intro st1 h1 he
      exact Sum.noConfusion he
  | cons c rest ih =>
    intro st x y r hwf h
    rw [wrapPass] at h
    split at h
    · split at h
      · exact Option.noConfusion h
      · next st1 hc =>
        obtain ⟨hv, hi⟩ := cache_char_batch_eq A face c st st1 hc
        exact ih _ _ _ _
          (add_char_to_batch_wf c text_color st1 wb.min.1 (y - line_height st)
            (batchWF_of_batch_eq st st1 hv hi hwf)) h
    · split at h
      · cases h
        constructor
        · intro st1 x1 y1 he
          exact Sum.noConfusion he
        · intro st1 h1 he
          cases he
          exact hwf
      · split at h
        · exact Option.noConfusion h
        · next st1 hc =>
          obtain ⟨hv, hi⟩ := cache_char_batch_eq A face c st st1 hc
          exact ih _ _ _ _
            (add_char_to_batch_wf c text_color st1 x y
              (batchWF_of_batch_eq st st1 hv hi hwf)) h

theorem wrapLines_wf {σ : Type} (A : AllocatorImpl σ) (face : Char → Glyph)
    (text_color : Color) (wb : Bbox) (y_start : ℚ) (s : List Char) :
    ∀ (n : ℕ) (st : TextRendererState σ) (y : ℚ) (st' : TextRendererState σ)
      (h' : ℚ), batchWF st →
      wrapLines A face text_color wb y_start s n st y = some (st', h') →
      batchWF st' := by
  intro n
  induction n with
  | zero =>
    intro st y st' h' hwf h
    rw [wrapLines] at h
    cases h
    exact hwf
  | succ m ih =>
    intro st y st' h' hwf h
    rw [wrapLines] at h
    split at h
    · exact Option.noConfusion h
    · rename_i r hp
      cases h
      exact (wrapPass_wf A face text_color wb y_start s st wb.min.1 y
        _ hwf hp).2 _ _ rfl
    · rename_i st1 x1 y1 hp
      exact ih _ _ _ _
        ((wrapPass_wf A face text_color wb y_start s st wb.min.1 y
          _ hwf hp).1 st1 x1 y1 rfl) h

theorem measureLen_wf {σ : Type} (A : AllocatorImpl σ) (face : Char → Glyph) :
    ∀ (cs : List Char) (st : TextRendererState σ) (len : ℚ)
      (st' : TextRendererState σ) (len' : ℚ), batchWF st →
      measureLen A face cs st len = some (st', len') → batchWF st' := by
  intro cs
  induction cs with
  | nil =>
    intro st len st' len' hwf h
    rw [measureLen] at h
    cases h
    exact hwf
  | cons c rest ih =>
    intro st len st' len' hwf h
    rw [measureLen] at h
    split at h
    · exact Option.noConfusion h
    · next st1 hc =>
      obtain ⟨hv, hi⟩ := cache_char_batch_eq A face c st st1 hc
      split at h
      · exact Option.noConfusion h
      · refine ih _ _ _ _ ?_ h
        exact batchWF_of_batch_eq st _ hv hi hwf

/-- **C10.** The quad batch maintains the invariant that after `clear` and
after every `add_char_to_batch` — and hence after every successful
`add_string_to_batch` and `add_multiline_string_to_batch` — the index list
has length `6·k` and the vertex list length `4·k` for the same `k`, and
every index value stored in the index list is strictly less than the number
of vertices. -/
theorem batch_invariant {σ : Type} (A : AllocatorImpl σ) (face : Char → Glyph) :
    (∀ st : TextRendererState σ, batchWF (clear st)) ∧
    (∀ (c : Char) (text_color : Color) (st : TextRendererState σ) (x y : ℚ),
      batchWF st → batchWF (add_char_to_batch c text_color st x y).1) ∧
    (∀ (s : List Char) (x y : ℚ) (text_color : Color) (wrap_bbox : Option Bbox)
        (st st' : TextRendererState σ) (h : ℚ), batchWF st →
      add_string_to_batch A face s x y text_color wrap_bbox st = some (st', h) →
      batchWF st') ∧
    (∀ (text : List (List Char)) (x y : ℚ) (text_color : Color)
        (wrap_bbox : Option Bbox) (st st' : TextRendererState σ) (yf : ℚ),
      batchWF st →
      add_multiline_string_to_batch A face text x y text_color wrap_bbox st =
        some (st', yf) → batchWF st') := by
  have hstring : ∀ (s : List Char) (x y : ℚ) (text_color : Color)
      (wrap_bbox : Option Bbox) (st st' : TextRendererState σ) (h : ℚ), batchWF st →
      add_string_to_batch A face s x y text_color wrap_bbox st = some (st', h) →
      batchWF st' := by
    intro s x y text_color wrap_bbox st st' h hwf hrun
    unfold add_string_to_batch at hrun
    cases wrap_bbox with
    | none =>
      dsimp only at hrun
      split at hrun
      · exact Option.noConfusion hrun
      · rename_i st1 x1 y2 hd
        cases hrun
        exact drawChars_wf A face text_color s st _ _ st' x1 y2 hwf hd
    | some wb =>
      dsimp only at hrun
      split at hrun
      · exact Option.noConfusion hrun
      · rename_i st1 len hm
        exact wrapLines_wf A face text_color wb _ s _ st1 _ st' h
          (measureLen_wf A face s st 0 st1 len hwf hm) hrun
  refine ⟨?_, ?_, hstring, ?_⟩
  · intro st
    exact ⟨0, by simp [clear], by simp [clear], by simp [clear]⟩
  · intro c text_color st x y hwf
    exact add_char_to_batch_wf c text_color st x y hwf
  · intro text
    induction text with
    | nil =>
      intro x y text_color wrap_bbox st st' yf hwf h
      rw [add_multiline_string_to_batch] at h
      cases h
      exact hwf
    | cons line rest ih =>
      intro x y text_color wrap_bbox st st' yf hwf h
      rw [add_multiline_string_to_batch] at h
      split at h
      · exact Option.noConfusion h
      · next st1 h1 hl =>
        exact ih x (y - h1) text_color wrap_bbox st1 st' yf
          (hstring line x y text_color wrap_bbox st st1 h1 hwf hl) h

/-- Witness for `batch_invariant`: the invariant after `clear` on the fresh
state, and after one `add_char_to_batch` from the cleared state. -/
theorem batch_invariant_witness :
    batchWF (clear initState) ∧
    batchWF (add_char_to_batch 'a' color0 (clear initState) 0 0).1 :=
  ⟨(batch_invariant shelfAllocator uniFace).1 initState,
    (batch_invariant shelfAllocator uniFace).2.1 'a' color0 (clear initState) 0 0
      ((batch_invariant shelfAllocator uniFace).1 initState)⟩

end Jui
